import Mathlib

/-!
Verification development for the bo_report pipeline.

`modules/read_bo.py` defines the aggregation pipeline `process_data` over the
BO funnel report, together with the I/O wrappers `read_bo` and `export_to_csv`.
`modules/update_sheets.py` defines the publisher, whose only cell-level logic
is `convert_to_serializable`.

The embedding below models a DataFrame as a list of records.  Categorical/key
columns ("Funn Status", " Channel", "Blk State", "Funn Monthcontractperiod",
"Funnel Bandwidth") are total strings; the "Nationality" column is a Python
string modelled as its list of code points, because `str.title()` operates
character by character; "Funnel SO No" is nullable; the "Probability 90% Date"
column before type conversion is a `DateCell`.  Dates are day numbers, since
`resample("d")` buckets the datetime index at calendar-day granularity.
-/

namespace BoReport

/-- A cell of the "Probability 90% Date" column before `astype`:
missing (NaN), a parseable date (already floored to its calendar day,
represented as a day number), or a value `datetime64` cannot parse. -/
inductive DateCell
  | nullDate : DateCell
  | validDate (day : Nat) : DateCell
  | badDate : DateCell
deriving DecidableEq

/-- One row of the raw BO report, restricted to the columns `process_data`
touches. -/
structure RawRecord where
  funnStatus : String
  channel : String
  nationality : List Nat
  blkState : String
  monthContractPeriod : String
  funnelBandwidth : String
  funnelSONo : Option String
  prob90Date : DateCell
deriving DecidableEq

/-- ASCII letter test on a code point (Python `str.title` treats maximal runs
of letters as words). -/
def isAlphaCode (n : Nat) : Bool :=
  decide ((65 ≤ n ∧ n ≤ 90) ∨ (97 ≤ n ∧ n ≤ 122))

/-- ASCII lower-casing of one code point. -/
def lowerCode (n : Nat) : Nat :=
  if 65 ≤ n ∧ n ≤ 90 then n + 32 else n

/-- ASCII upper-casing of one code point. -/
def upperCode (n : Nat) : Nat :=
  if 97 ≤ n ∧ n ≤ 122 then n - 32 else n

/-- Worker for `pyTitle`; the boolean records whether the previous character
was a letter. -/
def titleAux : Bool → List Nat → List Nat
  | _, [] => []
  | prevAlpha, c :: cs =>
      (if isAlphaCode c then (if prevAlpha then lowerCode c else upperCode c) else c)
        :: titleAux (isAlphaCode c) cs

/-- Python `Series.str.title()` on one value: the first letter of every run of
letters is upper-cased, the following letters of the run are lower-cased,
other characters are unchanged. -/
def pyTitle (s : List Nat) : List Nat := titleAux false s

/-- Code points of a Lean string literal, to write Python strings concretely. -/
def codes (s : String) : List Nat := s.data.map Char.toNat

/-- The channel allow-list of the `.loc` filter. -/
def allowedChannels : List String := ["ONLINE", "INSIDE SALES", "DEALER"]

/-- Row predicate of the `.loc` filter:
`(df["Funn Status"] != "Lost") & (df[" Channel"].isin([...]))`. -/
def passesFilter (r : RawRecord) : Bool :=
  (r.funnStatus != "Lost") && allowedChannels.contains r.channel

/-- The `.loc` filter step. -/
def filterStep (df : List RawRecord) : List RawRecord := df.filter passesFilter

/-- A row after `astype({"Probability 90% Date": "datetime64[ns]"})`: the date
is now a datetime, `Option.none` standing for NaT. -/
structure TypedRecord where
  funnStatus : String
  channel : String
  nationality : List Nat
  blkState : String
  monthContractPeriod : String
  funnelBandwidth : String
  funnelSONo : Option String
  prob90Date : Option Nat
deriving DecidableEq

/-- `astype` on one date cell: NaN becomes NaT, a parseable value becomes a
datetime, and an unparseable value raises (modelled as failure of the whole
conversion, `Option.none`). -/
def astypeCell : DateCell → Option (Option Nat)
  | DateCell.nullDate => some Option.none
  | DateCell.validDate d => some (some d)
  | DateCell.badDate => Option.none

/-- A raw row with its date cell replaced by the converted datetime. -/
def typedOf (r : RawRecord) (od : Option Nat) : TypedRecord :=
  { funnStatus := r.funnStatus, channel := r.channel,
    nationality := r.nationality, blkState := r.blkState,
    monthContractPeriod := r.monthContractPeriod,
    funnelBandwidth := r.funnelBandwidth, funnelSONo := r.funnelSONo,
    prob90Date := od }

/-- The `astype` step over the filtered frame, row by row; it fails as a whole
if any row's date cell is unparseable. -/
def astypeStep : List RawRecord → Option (List TypedRecord)
  | [] => some []
  | r :: l =>
      (astypeCell r.prob90Date).bind (fun od =>
        (astypeStep l).map (fun t => typedOf r od :: t))

/-- `.assign(Nationality=df["Nationality"].str.title())`. -/
def assignStep (r : TypedRecord) : TypedRecord :=
  { r with nationality := pyTitle r.nationality }

/-- A row after `.dropna(subset="Probability 90% Date")` and
`.set_index("Probability 90% Date")`: its date is definite. -/
structure KeyedRecord where
  channel : String
  blkState : String
  monthContractPeriod : String
  funnelBandwidth : String
  nationality : List Nat
  funnelSONo : Option String
  day : Nat
deriving DecidableEq

/-- A typed row re-indexed by its (definite) date. -/
def keyedOf (r : TypedRecord) (d : Nat) : KeyedRecord :=
  { channel := r.channel, blkState := r.blkState,
    monthContractPeriod := r.monthContractPeriod,
    funnelBandwidth := r.funnelBandwidth, nationality := r.nationality,
    funnelSONo := r.funnelSONo, day := d }

/-- `.dropna(subset="Probability 90% Date")`: rows whose date is NaT are
removed; the rest keep their date as the index. -/
def dropnaStep (df : List TypedRecord) : List KeyedRecord :=
  df.filterMap (fun r => r.prob90Date.map (fun d => keyedOf r d))

/-- The 5-tuple `groupby` key:
(" Channel", "Blk State", "Funn Monthcontractperiod", "Funnel Bandwidth",
"Nationality"). -/
structure GroupKey where
  channel : String
  blkState : String
  monthContractPeriod : String
  funnelBandwidth : String
  nationality : List Nat
deriving DecidableEq

/-- The group key of a kept row. -/
def keyOf (r : KeyedRecord) : GroupKey :=
  { channel := r.channel, blkState := r.blkState,
    monthContractPeriod := r.monthContractPeriod,
    funnelBandwidth := r.funnelBandwidth, nationality := r.nationality }

/-- One row of the output of `.reset_index()`: group key, resampled day, and
the count of the selected "Funnel SO No" column. -/
structure AggRecord where
  key : GroupKey
  day : Nat
  count : Nat
deriving DecidableEq

/-- The distinct group keys present among the kept rows.  (pandas enumerates
groups in sorted key order; the enumeration order of groups is irrelevant to
every property stated below, because the rows are subsequently re-ordered by
date alone.) -/
def groupKeys (rs : List KeyedRecord) : List GroupKey := (rs.map keyOf).dedup

/-- `count()` of the selected "Funnel SO No" column for one daily bin of one
group: the number of rows of the group that fall on day `d` and have a
non-null "Funnel SO No". -/
def dayCount (rs : List KeyedRecord) (k : GroupKey) (d : Nat) : Nat :=
  rs.countP (fun r =>
    decide (keyOf r = k) && decide (r.day = d) && r.funnelSONo.isSome)

/-- `.resample("d")["Funnel SO No"].count()` for one group: one bin for every
calendar day from the group's earliest to its latest observed date (gap days
included, with count 0 when no row with a non-null "Funnel SO No" falls on
them). -/
def resampleGroup (rs : List KeyedRecord) (k : GroupKey) : List AggRecord :=
  match ((rs.filter (fun r => decide (keyOf r = k))).map (fun r => r.day)).min?,
        ((rs.filter (fun r => decide (keyOf r = k))).map (fun r => r.day)).max? with
  | some lo, some hi =>
      (List.range (hi + 1 - lo)).map (fun i =>
        { key := k, day := lo + i, count := dayCount rs k (lo + i) })
  | _, _ => []

/-- `.groupby([...]).resample("d")["Funnel SO No"].count().reset_index()`:
the flattened rows of every group's daily bins. -/
def resampleCountStep (rs : List KeyedRecord) : List AggRecord :=
  (groupKeys rs).flatMap (fun k => resampleGroup rs k)

/-- ``.query("`Funnel SO No` > 0")``. -/
def queryStep (l : List AggRecord) : List AggRecord :=
  l.filter (fun a => decide (0 < a.count))

/-- Non-decreasing date order between output rows. -/
def dayLE (a b : AggRecord) : Prop := a.day ≤ b.day

/-- Non-increasing date order between output rows. -/
def dayGE (a b : AggRecord) : Prop := b.day ≤ a.day

instance : DecidableRel dayLE := fun a b => Nat.decLe a.day b.day

instance : DecidableRel dayGE := fun a b => Nat.decLe b.day a.day

instance : IsTotal AggRecord dayLE := ⟨fun a b => Nat.le_total a.day b.day⟩

instance : IsTrans AggRecord dayLE := ⟨fun _ _ _ h h' => Nat.le_trans h h'⟩

instance : IsTotal AggRecord dayGE := ⟨fun a b => Nat.le_total b.day a.day⟩

instance : IsTrans AggRecord dayGE := ⟨fun _ _ _ h h' => Nat.le_trans h' h⟩

/-- `.sort_values("Probability 90% Date", ascending=False)`.  (The source's
sort algorithm leaves the relative order of rows with equal dates
unspecified; a stable sort is one admissible refinement, and no property
below depends on the order of date ties.) -/
def sortDescStep (l : List AggRecord) : List AggRecord :=
  l.insertionSort dayGE

/-- `.sort_values("Probability 90% Date")` — the final, ascending sort. -/
def sortAscStep (l : List AggRecord) : List AggRecord :=
  l.insertionSort dayLE

/-- The rows that reach the `groupby`: filtered, `astype`-converted,
title-cased, with null dates dropped.  `Option.none` when `astype` raised. -/
def preparedRows (df : List RawRecord) : Option (List KeyedRecord) :=
  (astypeStep (filterStep df)).map (fun typed => dropnaStep (typed.map assignStep))

/-- `process_data` from read_bo.py.  `Option.none` models the `except` branch
(`return  # Just break when an error occurs`); the only failure the modelled
columns can raise is an unparseable date cell under `astype`. -/
def process_data (df : List RawRecord) : Option (List AggRecord) :=
  match preparedRows df with
  | Option.none => Option.none
  | some rs =>
      some (sortAscStep (sortDescStep (queryStep (resampleCountStep rs))))

/-- `read_bo` from read_bo.py with the outcome of `pd.read_excel` supplied as
input: on success the frame is returned, on an exception the handler logs and
falls through, returning `None`. -/
def read_bo (io : Except String (List RawRecord)) : Option (List RawRecord) :=
  match io with
  | Except.ok df => some df
  | Except.error _ => Option.none

/-- `export_to_csv` from read_bo.py with the outcome of `df.to_csv` supplied
as input: on success the function returns `None` normally (modelled `some ()`
to distinguish it), on an exception the handler logs and falls through,
returning `None` without re-raising. -/
def export_to_csv (io : Except String Unit) : Option Unit :=
  match io with
  | Except.ok _ => some ()
  | Except.error _ => Option.none

/-- A Python value as seen by `convert_to_serializable` in update_sheets.py.
Floats carry a symbolic NaN flag and an integer payload standing for the
(otherwise uninterpreted) finite value; the function never computes with the
payload. -/
inductive PyVal
  | npInt (n : Int) : PyVal
  | npFloat (isNaN : Bool) (val : Int) : PyVal
  | npArray (elems : List PyVal) : PyVal
  | npBool (b : Bool) : PyVal
  | pyInt (n : Int) : PyVal
  | pyFloat (isNaN : Bool) (val : Int) : PyVal
  | pyStr (s : String) : PyVal
  | pyBool (b : Bool) : PyVal
  | pyList (elems : List PyVal) : PyVal
  | pyNone : PyVal
  | pyNaT : PyVal

mutual

/-- `numpy.ndarray.tolist()`: numpy scalars become native Python scalars,
arrays become lists, recursively; other objects pass through unchanged. -/
def npToList : PyVal → PyVal
  | PyVal.npInt n => PyVal.pyInt n
  | PyVal.npFloat b v => PyVal.pyFloat b v
  | PyVal.npBool b => PyVal.pyBool b
  | PyVal.npArray l => PyVal.pyList (npToListL l)
  | v => v

/-- `tolist` applied elementwise. -/
def npToListL : List PyVal → List PyVal
  | [] => []
  | v :: vs => npToList v :: npToListL vs

end

/-- `pd.isna` on a scalar cell: true for `None`, `NaT` and float NaN. -/
def pdIsna : PyVal → Bool
  | PyVal.pyNone => true
  | PyVal.pyNaT => true
  | PyVal.pyFloat b _ => b
  | PyVal.npFloat b _ => b
  | _ => false

/-- `convert_to_serializable` from update_sheets.py.  The branch order is the
source's: the numpy-type `isinstance` branches run before the `pd.isna`
check, so a numpy floating NaN is converted to a native float NaN by the
second branch and never reaches the empty-string branch. -/
def convert_to_serializable : PyVal → PyVal
  | PyVal.npInt n => PyVal.pyInt n
  | PyVal.npFloat b v => PyVal.pyFloat b v
  | PyVal.npArray l => PyVal.pyList (npToListL l)
  | PyVal.npBool b => PyVal.pyBool b
  | v => if pdIsna v then PyVal.pyStr "" else v

mutual

/-- A value the JSON transport of the Sheets update accepts as a cell:
a finite number, a boolean, a string, or a list of such. -/
def transportSafe : PyVal → Bool
  | PyVal.pyInt _ => true
  | PyVal.pyFloat b _ => !b
  | PyVal.pyStr _ => true
  | PyVal.pyBool _ => true
  | PyVal.pyList l => transportSafeL l
  | _ => false

/-- `transportSafe` over every element of a list. -/
def transportSafeL : List PyVal → Bool
  | [] => true
  | v :: vs => transportSafe v && transportSafeL vs

end

mutual

/-- Values safe as elements of a numpy array cell: after `tolist()` they
become transport-safe.  NaN floats, `None` and `NaT` are excluded because
`tolist` does not replace them. -/
def elemOk : PyVal → Bool
  | PyVal.npInt _ => true
  | PyVal.npFloat b _ => !b
  | PyVal.npBool _ => true
  | PyVal.npArray l => elemOkL l
  | PyVal.pyInt _ => true
  | PyVal.pyFloat b _ => !b
  | PyVal.pyStr _ => true
  | PyVal.pyBool _ => true
  | PyVal.pyList l => transportSafeL l
  | PyVal.pyNone => false
  | PyVal.pyNaT => false

/-- `elemOk` over every element of a list. -/
def elemOkL : List PyVal → Bool
  | [] => true
  | v :: vs => elemOk v && elemOkL vs

end

/-- Cells for which the conversion produces a transport-safe value: everything
except a numpy floating NaN, an array containing a value `tolist` cannot
neutralise, or a pre-existing list with unsafe elements. -/
def cellOk : PyVal → Bool
  | PyVal.npFloat b _ => !b
  | PyVal.npArray l => elemOkL l
  | PyVal.pyList l => transportSafeL l
  | _ => true

/-- A concrete open ONLINE row with an order number, landing on day 3. -/
def soRow : RawRecord :=
  { funnStatus := "Open", channel := "ONLINE",
    nationality := codes ("john doe"), blkState := "SEL",
    monthContractPeriod := "24", funnelBandwidth := "100Mbps",
    funnelSONo := some "SO-1", prob90Date := DateCell.validDate 3 }

/-- The same row with a missing "Funnel SO No". -/
def noSoRow : RawRecord := { soRow with funnelSONo := Option.none }

/-- The same row with status "Lost". -/
def lostRow : RawRecord := { soRow with funnStatus := "Lost" }

/-- The same row with a missing date. -/
def nullDateRow : RawRecord := { soRow with prob90Date := DateCell.nullDate }

/-- The same row with an unparseable date cell. -/
def badDateRow : RawRecord := { soRow with prob90Date := DateCell.badDate }

/-- A table on which the row with the missing order number is bucketed but not
counted: both rows pass the filter, share the 5-tuple key and fall on day 3,
yet only one has a non-null "Funnel SO No". -/
def cexTable : List RawRecord := [soRow, noSoRow]

/-- The group key of `cexTable`'s rows after title-casing. -/
def cexKey : GroupKey :=
  { channel := "ONLINE", blkState := "SEL", monthContractPeriod := "24",
    funnelBandwidth := "100Mbps", nationality := codes ("John Doe") }

/-- The kept rows of `cexTable` (both survive filtering and the date steps). -/
def cexKept : List KeyedRecord :=
  [{ channel := "ONLINE", blkState := "SEL", monthContractPeriod := "24",
     funnelBandwidth := "100Mbps", nationality := codes ("John Doe"),
     funnelSONo := some "SO-1", day := 3 },
   { channel := "ONLINE", blkState := "SEL", monthContractPeriod := "24",
     funnelBandwidth := "100Mbps", nationality := codes ("John Doe"),
     funnelSONo := Option.none, day := 3 }]

/-- The single aggregated row `process_data` produces from `cexTable`. -/
def cexAgg : AggRecord := { key := cexKey, day := 3, count := 1 }

/-! ## Pipeline helper lemmas -/

/-- `process_data` unfolded when the `astype` conversion succeeded. -/
theorem process_data_eq_of_prepared {df : List RawRecord} {rs : List KeyedRecord}
    (h : preparedRows df = some rs) :
    process_data df =
      some (sortAscStep (sortDescStep (queryStep (resampleCountStep rs)))) := by
  unfold process_data
  rw [h]

/-- `process_data` unfolded when the `astype` conversion raised. -/
theorem process_data_eq_none {df : List RawRecord}
    (h : preparedRows df = Option.none) : process_data df = Option.none := by
  unfold process_data
  rw [h]

/-- The two sorts do not change which rows appear. -/
theorem mem_sortAsc_sortDesc {a : AggRecord} {l : List AggRecord} :
    a ∈ sortAscStep (sortDescStep l) ↔ a ∈ l := by
  unfold sortAscStep sortDescStep
  rw [List.mem_insertionSort, List.mem_insertionSort]

/-- A row of the returned table is an unfiltered aggregation row with a
positive count. -/
theorem mem_of_mem_output {df : List RawRecord} {rs : List KeyedRecord}
    {out : List AggRecord} {a : AggRecord} (hp : preparedRows df = some rs)
    (ho : process_data df = some out) (ha : a ∈ out) :
    a ∈ resampleCountStep rs ∧ 0 < a.count := by
  rw [process_data_eq_of_prepared hp] at ho
  simp only [Option.some.injEq] at ho
  subst ho
  rw [mem_sortAsc_sortDesc] at ha
  unfold queryStep at ha
  rw [List.mem_filter] at ha
  exact ⟨ha.1, of_decide_eq_true ha.2⟩

/-- Every row a group's resampling emits carries the day-bin count of that
group. -/
theorem count_eq_of_mem_resampleGroup {rs : List KeyedRecord} {k : GroupKey}
    {a : AggRecord} (h : a ∈ resampleGroup rs k) :
    a.count = dayCount rs a.key a.day := by
  unfold resampleGroup at h
  split at h
  · rw [List.mem_map] at h
    obtain ⟨i, _, rfl⟩ := h
    rfl
  · simp at h

/-- Every row of the flattened groupby/resample table carries its group's
day-bin count. -/
theorem count_eq_of_mem_resampleCountStep {rs : List KeyedRecord}
    {a : AggRecord} (h : a ∈ resampleCountStep rs) :
    a.count = dayCount rs a.key a.day := by
  unfold resampleCountStep at h
  rw [List.mem_flatMap] at h
  obtain ⟨k, _, hk⟩ := h
  exact count_eq_of_mem_resampleGroup hk

/-! ## Claim theorems -/

/-- C2: a raw record survives the `.loc` filter step iff its status is not
"Lost" and its channel is one of ONLINE, INSIDE SALES, DEALER; every other
record is excluded. -/
theorem C2_filter_rule : ∀ (df : List RawRecord) (r : RawRecord),
    r ∈ filterStep df ↔
      (r ∈ df ∧ r.funnStatus ≠ "Lost" ∧
        (r.channel = "ONLINE" ∨ r.channel = "INSIDE SALES" ∨
          r.channel = "DEALER")) := by
  intro df r
  unfold filterStep passesFilter allowedChannels
  rw [List.mem_filter]
  simp [and_assoc]

/-- C2 witness: the concrete open ONLINE row passes, the "Lost" row does
not. -/
theorem C2_filter_rule_witness :
    (soRow ∈ filterStep [soRow, lostRow] ↔
      (soRow ∈ [soRow, lostRow] ∧ soRow.funnStatus ≠ "Lost" ∧
        (soRow.channel = "ONLINE" ∨ soRow.channel = "INSIDE SALES" ∨
          soRow.channel = "DEALER"))) ∧
    soRow ∈ filterStep [soRow, lostRow] ∧ lostRow ∉ filterStep [soRow, lostRow] :=
  ⟨C2_filter_rule [soRow, lostRow] soRow, by decide, by decide⟩

/-- C4: every record of the aggregated table `process_data` returns has a
strictly positive count; the explicit zero-count bins materialised by the
daily resampling are removed by the `query` filter. -/
theorem C4_positive_counts : ∀ (df : List RawRecord) (out : List AggRecord),
    process_data df = some out → ∀ a ∈ out, 0 < a.count := by
  intro df out ho a ha
  cases hp : preparedRows df with
  | none => rw [process_data_eq_none hp] at ho; cases ho
  | some rs => exact (mem_of_mem_output hp ho ha).2

/-- C4 witness at the concrete table. -/
theorem C4_positive_counts_witness :
    process_data cexTable = some [cexAgg] ∧ ∀ a ∈ [cexAgg], 0 < a.count :=
  ⟨by decide, C4_positive_counts cexTable [cexAgg] (by decide)⟩

/-- C5: the table `process_data` returns is sorted non-decreasing by date, and
the pair of sorts (descending, then ascending) only permutes the rows of the
aggregation — order aside, the output rows are exactly the positive-count
aggregation rows. -/
theorem C5_sorted_ascending : ∀ (df : List RawRecord) (rs : List KeyedRecord)
    (out : List AggRecord), preparedRows df = some rs →
    process_data df = some out →
    out.Pairwise (fun a b => a.day ≤ b.day) ∧
      out.Perm (queryStep (resampleCountStep rs)) := by
  intro df rs out hp ho
  rw [process_data_eq_of_prepared hp] at ho
  simp only [Option.some.injEq] at ho
  subst ho
  constructor
  · exact List.sorted_insertionSort dayLE (sortDescStep (queryStep (resampleCountStep rs)))
  · exact (List.perm_insertionSort dayLE _).trans (List.perm_insertionSort dayGE _)

/-- C5 witness at the concrete table. -/
theorem C5_sorted_ascending_witness :
    preparedRows cexTable = some cexKept ∧ process_data cexTable = some [cexAgg] ∧
      ([cexAgg].Pairwise (fun a b => a.day ≤ b.day) ∧
        [cexAgg].Perm (queryStep (resampleCountStep cexKept))) :=
  ⟨by decide, by decide,
    C5_sorted_ascending cexTable cexKept [cexAgg] (by decide) (by decide)⟩

/-- C7: an empty raw table, a table emptied by the filter, and a table whose
remaining rows all have null dates each yield an empty aggregated table, not
an error. -/
theorem C7_empty_inputs :
    process_data [] = some [] ∧
    (∀ df : List RawRecord, filterStep df = [] → process_data df = some []) ∧
    (∀ (df : List RawRecord) (typed : List TypedRecord),
      astypeStep (filterStep df) = some typed →
      (∀ r ∈ typed, r.prob90Date = Option.none) →
      process_data df = some []) := by
  refine ⟨rfl, fun df h => ?_, fun df typed hty hall => ?_⟩
  · have hprep : preparedRows df = some [] := by
      unfold preparedRows
      rw [h]
      rfl
    rw [process_data_eq_of_prepared hprep]
    rfl
  · have hnil : dropnaStep (typed.map assignStep) = [] := by
      unfold dropnaStep
      rw [List.filterMap_eq_nil_iff]
      intro r hr
      rw [List.mem_map] at hr
      obtain ⟨t, ht, rfl⟩ := hr
      have hd := hall t ht
      unfold assignStep
      simp [hd]
    have hprep : preparedRows df = some [] := by
      unfold preparedRows
      rw [hty]
      simp [hnil]
    rw [process_data_eq_of_prepared hprep]
    rfl

/-- C7 witness: a table whose only rows are a "Lost" row (removed by the
filter) and a null-date row (removed by dropna) yields the empty table, and
so do the other two hypotheses at concrete inputs. -/
theorem C7_empty_inputs_witness :
    filterStep [lostRow] = [] ∧ process_data [lostRow] = some [] ∧
      astypeStep (filterStep [lostRow, nullDateRow]) =
        some [typedOf nullDateRow Option.none] ∧
      process_data [lostRow, nullDateRow] = some [] :=
  ⟨by decide, C7_empty_inputs.2.1 [lostRow] (by decide), by decide,
    C7_empty_inputs.2.2 [lostRow, nullDateRow] [typedOf nullDateRow Option.none]
      (by decide) (by decide)⟩

/-- C9: in the reference behaviour each stage catches its failure, logs and
returns `None` instead of re-raising — the loader on a failed read, the
aggregator on a failed `astype` conversion, the writer on a failed write. -/
theorem C9_swallowed_errors :
    (∀ e : String, read_bo (Except.error e) = Option.none) ∧
    (∀ df : List RawRecord, astypeStep (filterStep df) = Option.none →
      process_data df = Option.none) ∧
    (∀ e : String, export_to_csv (Except.error e) = Option.none) := by
  refine ⟨fun e => rfl, fun df h => ?_, fun e => rfl⟩
  apply process_data_eq_none
  unfold preparedRows
  rw [h]
  rfl

/-- C9 witness at a concrete error and at the unparseable-date table. -/
theorem C9_swallowed_errors_witness :
    read_bo (Except.error "VPN down") = Option.none ∧
      astypeStep (filterStep [badDateRow]) = Option.none ∧
      process_data [badDateRow] = Option.none ∧
      export_to_csv (Except.error "disk full") = Option.none :=
  ⟨C9_swallowed_errors.1 "VPN down", by decide,
    C9_swallowed_errors.2.1 [badDateRow] (by decide),
    C9_swallowed_errors.2.2 "disk full"⟩

/-- C1 (amended): every record of the aggregated table has a count equal to
the number of kept raw records — those surviving the filter, `astype`,
title-casing and dropna steps — that share its 5-tuple key, fall on its
calendar day, and in addition have a non-null "Funnel SO No"; rows with a
missing order number are bucketed but not counted. -/
theorem C1_count_amended : ∀ (df : List RawRecord) (rs : List KeyedRecord)
    (out : List AggRecord), preparedRows df = some rs →
    process_data df = some out →
    ∀ a ∈ out, a.count = dayCount rs a.key a.day := by
  intro df rs out hp ho a ha
  exact count_eq_of_mem_resampleCountStep (mem_of_mem_output hp ho ha).1

/-- C1 counterexample: on `cexTable` the output row counts 1, while 2 kept
raw records share its 5-tuple key and calendar day (the claim as stated, with
no condition on "Funnel SO No", would require the count to be 2). -/
theorem C1_count_counterexample :
    preparedRows cexTable = some cexKept ∧
    process_data cexTable = some [cexAgg] ∧ cexAgg ∈ [cexAgg] ∧
    cexAgg.count ≠ cexKept.countP
      (fun r => decide (keyOf r = cexAgg.key) && decide (r.day = cexAgg.day)) :=
  ⟨by decide, by decide, by decide, by decide⟩

/-- C1 witness at the concrete table. -/
theorem C1_count_amended_witness :
    preparedRows cexTable = some cexKept ∧
      process_data cexTable = some [cexAgg] ∧
      ∀ a ∈ [cexAgg], a.count = dayCount cexKept a.key a.day :=
  ⟨by decide, by decide,
    C1_count_amended cexTable cexKept [cexAgg] (by decide) (by decide)⟩

/-- C10: the per-day count of an output record is the number of kept rows of
its partition on its day whose "Funnel SO No" is non-null, and a kept row is
never dropped for having a null "Funnel SO No" — dropping depends on the date
alone. -/
theorem C10_null_so_not_counted :
    (∀ (df : List RawRecord) (rs : List KeyedRecord) (out : List AggRecord),
      preparedRows df = some rs → process_data df = some out →
      ∀ a ∈ out, a.count = rs.countP (fun r =>
        decide (keyOf r = a.key) && decide (r.day = a.day) &&
          r.funnelSONo.isSome)) ∧
    (∀ (typed : List TypedRecord) (r : TypedRecord) (d : Nat), r ∈ typed →
      r.prob90Date = some d → keyedOf r d ∈ dropnaStep typed) := by
  constructor
  · intro df rs out hp ho a ha
    exact count_eq_of_mem_resampleCountStep (mem_of_mem_output hp ho ha).1
  · intro typed r d hr hd
    unfold dropnaStep
    rw [List.mem_filterMap]
    exact ⟨r, hr, by rw [hd]; rfl⟩

/-- C10 witness: on the concrete table the null-`SO` row is kept as a row but
the day's count is 1, counting only the non-null order number. -/
theorem C10_null_so_not_counted_witness :
    preparedRows cexTable = some cexKept ∧
      process_data cexTable = some [cexAgg] ∧
      (∀ a ∈ [cexAgg], a.count = cexKept.countP (fun r =>
        decide (keyOf r = a.key) && decide (r.day = a.day) &&
          r.funnelSONo.isSome)) ∧
      typedOf noSoRow (some 3) ∈ [typedOf noSoRow (some 3)] ∧
      keyedOf (typedOf noSoRow (some 3)) 3 ∈ dropnaStep [typedOf noSoRow (some 3)] :=
  ⟨by decide, by decide,
    (C10_null_so_not_counted.1) cexTable cexKept [cexAgg] (by decide) (by decide),
    by decide,
    (C10_null_so_not_counted.2) [typedOf noSoRow (some 3)]
      (typedOf noSoRow (some 3)) 3 (by decide) (by decide)⟩

/-- `astype` over an appended frame converts each part and appends. -/
theorem astypeStep_append (l1 l2 : List RawRecord) :
    astypeStep (l1 ++ l2) =
      (astypeStep l1).bind (fun a => (astypeStep l2).map (fun b => a ++ b)) := by
  induction l1 with
  | nil =>
      rw [List.nil_append]
      cases h2 : astypeStep l2 with
      | none => rfl
      | some t2 => rfl
  | cons r l ih =>
      rw [List.cons_append]
      show (astypeCell r.prob90Date).bind (fun od =>
          (astypeStep (l ++ l2)).map (fun t => typedOf r od :: t)) =
        ((astypeCell r.prob90Date).bind (fun od =>
          (astypeStep l).map (fun t => typedOf r od :: t))).bind
            (fun a => (astypeStep l2).map (fun b => a ++ b))
      rw [ih]
      cases h0 : astypeCell r.prob90Date with
      | none => rfl
      | some od =>
          cases h1 : astypeStep l with
          | none => rfl
          | some t =>
              cases h2 : astypeStep l2 with
              | none => rfl
              | some t2 => rfl

/-- A frame containing an unparseable date cell makes `astype` raise. -/
theorem astypeStep_none_of_bad : ∀ l : List RawRecord,
    (∃ x ∈ l, x.prob90Date = DateCell.badDate) →
    astypeStep l = Option.none := by
  intro l
  induction l with
  | nil => rintro ⟨x, hx, _⟩; cases hx
  | cons r t ih =>
      rintro ⟨x, hx, hbad⟩
      rcases List.mem_cons.mp hx with rfl | hxt
      · simp only [astypeStep, hbad]
        rfl
      · simp only [astypeStep, ih ⟨x, hxt, hbad⟩]
        cases astypeCell r.prob90Date <;> rfl

/-- C3 (amended): a null date cell becomes NaT and its row is excluded from
all aggregation regardless of its other field values; but a date cell that
cannot be parsed is not coerced to null — it makes the `astype` conversion
raise, so `process_data` catches the error and returns `None` for the whole
table. -/
theorem C3_null_excluded_bad_raises : ∀ (df : List RawRecord) (r : RawRecord),
    (r.prob90Date = DateCell.nullDate →
      process_data (df ++ [r]) = process_data df) ∧
    ((∃ x ∈ filterStep df, x.prob90Date = DateCell.badDate) →
      process_data df = Option.none) := by
  intro df r
  constructor
  · intro hnull
    have hprep : preparedRows (df ++ [r]) = preparedRows df := by
      unfold preparedRows filterStep
      rw [List.filter_append]
      by_cases hpf : passesFilter r
      · have h1 : List.filter passesFilter [r] = [r] := by simp [hpf]
        rw [h1, astypeStep_append]
        have hr : astypeStep [r] = some [typedOf r Option.none] := by
          show (astypeCell r.prob90Date).bind (fun od =>
              (astypeStep []).map (fun t => typedOf r od :: t)) = _
          rw [hnull]
          rfl
        rw [hr]
        cases hF : astypeStep (List.filter passesFilter df) with
        | none => rfl
        | some t =>
            simp only [Option.some_bind, Option.map_some', Option.some.injEq]
            unfold dropnaStep
            rw [List.map_append, List.filterMap_append]
            simp [assignStep, typedOf]
      · have h1 : List.filter passesFilter [r] = [] := by simp [hpf]
        rw [h1, List.append_nil]
    unfold process_data
    rw [hprep]
  · intro hex
    apply process_data_eq_none
    unfold preparedRows
    rw [astypeStep_none_of_bad _ hex]
    rfl

/-- C3 counterexample: a table whose only row passes the filter and has an
unparseable date makes `process_data` return `None`; the claim as stated
(unparseable becomes null, row excluded, no failure) would require the empty
table `some []`, which an empty input indeed produces. -/
theorem C3_unparseable_counterexample :
    passesFilter badDateRow = true ∧
    badDateRow.prob90Date = DateCell.badDate ∧
    process_data [badDateRow] = Option.none ∧
    process_data ([] : List RawRecord) = some ([] : List AggRecord) ∧
    (Option.none : Option (List AggRecord)) ≠ some [] :=
  ⟨by decide, by decide, by decide, rfl, by decide⟩

/-- Lower-casing does not change whether a code point is a letter. -/
theorem isAlphaCode_lowerCode (n : Nat) :
    isAlphaCode (lowerCode n) = isAlphaCode n := by
  unfold isAlphaCode lowerCode
  split <;> (apply decide_eq_decide.mpr; omega)

/-- Upper-casing does not change whether a code point is a letter. -/
theorem isAlphaCode_upperCode (n : Nat) :
    isAlphaCode (upperCode n) = isAlphaCode n := by
  unfold isAlphaCode upperCode
  split <;> (apply decide_eq_decide.mpr; omega)

/-- Lower-casing a code point twice is lower-casing it once. -/
theorem lowerCode_lowerCode (n : Nat) : lowerCode (lowerCode n) = lowerCode n := by
  unfold lowerCode
  by_cases h : 65 ≤ n ∧ n ≤ 90
  · rw [if_pos h, if_neg (by omega)]
  · rw [if_neg h, if_neg h]

/-- Upper-casing a code point twice is upper-casing it once. -/
theorem upperCode_upperCode (n : Nat) : upperCode (upperCode n) = upperCode n := by
  unfold upperCode
  by_cases h : 97 ≤ n ∧ n ≤ 122
  · rw [if_pos h, if_neg (by omega)]
  · rw [if_neg h, if_neg h]

/-- Code points with the same lower-casing have the same upper-casing. -/
theorem upperCode_eq_of_lowerCode_eq {a b : Nat}
    (h : lowerCode a = lowerCode b) : upperCode a = upperCode b := by
  unfold lowerCode at h
  unfold upperCode
  split at h <;> split at h <;> split <;> split <;> omega

/-- Code points with the same lower-casing are letters together. -/
theorem isAlphaCode_eq_of_lowerCode_eq {a b : Nat}
    (h : lowerCode a = lowerCode b) : isAlphaCode a = isAlphaCode b := by
  unfold lowerCode at h
  unfold isAlphaCode
  split at h <;> split at h <;> (apply decide_eq_decide.mpr; omega)

/-- A non-letter code point is fixed by lower-casing. -/
theorem lowerCode_of_not_alpha {n : Nat} (h : isAlphaCode n = false) :
    lowerCode n = n := by
  unfold isAlphaCode at h
  rw [decide_eq_false_iff_not] at h
  unfold lowerCode
  rw [if_neg (by omega)]

/-- Title-casing is idempotent, for any starting word-state. -/
theorem titleAux_idem (b : Bool) (s : List Nat) :
    titleAux b (titleAux b s) = titleAux b s := by
  induction s generalizing b with
  | nil => rfl
  | cons c cs ih =>
      cases hA : isAlphaCode c with
      | false => simp [titleAux, hA, ih]
      | true =>
          cases b with
          | false =>
              simp [titleAux, hA, isAlphaCode_upperCode, upperCode_upperCode, ih]
          | true =>
              simp [titleAux, hA, isAlphaCode_lowerCode, lowerCode_lowerCode, ih]

/-- Title-casing only depends on the lower-cased image of the string. -/
theorem titleAux_congr (b : Bool) (s t : List Nat)
    (h : s.map lowerCode = t.map lowerCode) : titleAux b s = titleAux b t := by
  induction s generalizing b t with
  | nil =>
      cases t with
      | nil => rfl
      | cons d ds => simp at h
  | cons c cs ih =>
      cases t with
      | nil => simp at h
      | cons d ds =>
          simp only [List.map_cons, List.cons.injEq] at h
          obtain ⟨h1, h2⟩ := h
          have hAl := isAlphaCode_eq_of_lowerCode_eq h1
          simp only [titleAux]
          rw [hAl]
          cases hAd : isAlphaCode d with
          | true =>
              rw [ih true ds h2]
              cases b with
              | false =>
                  rw [upperCode_eq_of_lowerCode_eq h1]
                  simp
              | true =>
                  rw [h1]
                  simp
          | false =>
              have hc : c = d := by
                have hca : isAlphaCode c = false := hAl.trans hAd
                calc c = lowerCode c := (lowerCode_of_not_alpha hca).symm
                  _ = lowerCode d := h1
                  _ = d := lowerCode_of_not_alpha hAd
              rw [hc, ih false ds h2]

/-- C6: nationality title-casing is idempotent, and strings equal up to
letter case (equal lower-cased images) title-case to the same value, hence
collapse to the same group key. -/
theorem C6_title_idempotent_collapses :
    (∀ s : List Nat, pyTitle (pyTitle s) = pyTitle s) ∧
    (∀ s t : List Nat, s.map lowerCode = t.map lowerCode →
      pyTitle s = pyTitle t) :=
  ⟨fun s => titleAux_idem false s, fun s t h => titleAux_congr false s t h⟩

/-- C6 witness: "john doe" and "JOHN DOE" both normalize to "John Doe", which
is itself fixed by normalization. -/
theorem C6_title_witness :
    pyTitle (pyTitle (codes ("john doe"))) = pyTitle (codes ("john doe")) ∧
    (codes ("john doe")).map lowerCode = (codes ("JOHN DOE")).map lowerCode ∧
    pyTitle (codes ("john doe")) = pyTitle (codes ("JOHN DOE")) ∧
    pyTitle (codes ("john doe")) = codes ("John Doe") :=
  ⟨C6_title_idempotent_collapses.1 (codes ("john doe")), by decide,
    C6_title_idempotent_collapses.2 (codes ("john doe"))
      (codes ("JOHN DOE")) (by decide),
    by decide⟩

mutual

/-- `tolist` turns any array element free of NaN/None/NaT into a
transport-safe value. -/
theorem transportSafe_npToList : ∀ v : PyVal, elemOk v = true →
    transportSafe (npToList v) = true
  | PyVal.npInt _, _ => by simp [npToList, transportSafe]
  | PyVal.npFloat b q, h => by
      simp only [elemOk] at h
      simp [npToList, transportSafe, h]
  | PyVal.npBool _, _ => by simp [npToList, transportSafe]
  | PyVal.npArray l, h => by
      simp only [elemOk] at h
      simp only [npToList, transportSafe]
      exact transportSafeL_npToListL l h
  | PyVal.pyInt _, _ => by simp [npToList, transportSafe]
  | PyVal.pyFloat b q, h => by
      simp only [elemOk] at h
      simp [npToList, transportSafe, h]
  | PyVal.pyStr _, _ => by simp [npToList, transportSafe]
  | PyVal.pyBool _, _ => by simp [npToList, transportSafe]
  | PyVal.pyList l, h => by
      simp only [elemOk] at h
      simp only [npToList, transportSafe]
      exact h
  | PyVal.pyNone, h => by simp [elemOk] at h
  | PyVal.pyNaT, h => by simp [elemOk] at h

/-- `tolist` elementwise preserves transport safety of safe elements. -/
theorem transportSafeL_npToListL : ∀ l : List PyVal, elemOkL l = true →
    transportSafeL (npToListL l) = true
  | [], _ => by simp [npToListL, transportSafeL]
  | v :: vs, h => by
      simp only [elemOkL, Bool.and_eq_true] at h
      simp only [npToListL, transportSafeL, Bool.and_eq_true]
      exact ⟨transportSafe_npToList v h.1, transportSafeL_npToListL vs h.2⟩

end

/-- C8 (amended): the conversion yields a transport-safe value for every cell
except one holding an unneutralised NaN/None/NaT — in particular a numpy
floating NaN; `None`, `NaT` and a native float NaN become the empty string,
while a numpy floating NaN is passed through as a float NaN instead. -/
theorem C8_serializable_amended :
    (∀ v : PyVal, cellOk v = true →
      transportSafe (convert_to_serializable v) = true) ∧
    convert_to_serializable PyVal.pyNone = PyVal.pyStr "" ∧
    convert_to_serializable PyVal.pyNaT = PyVal.pyStr "" ∧
    (∀ q : Int, convert_to_serializable (PyVal.pyFloat true q) = PyVal.pyStr "") ∧
    (∀ q : Int,
      convert_to_serializable (PyVal.npFloat true q) = PyVal.pyFloat true q) := by
  refine ⟨fun v hv => ?_, rfl, rfl, fun q => rfl, fun q => rfl⟩
  cases v with
  | npInt n => simp [convert_to_serializable, transportSafe]
  | npFloat b q =>
      simp only [cellOk] at hv
      simp [convert_to_serializable, transportSafe, hv]
  | npArray l =>
      simp only [cellOk] at hv
      simp only [convert_to_serializable, transportSafe]
      exact transportSafeL_npToListL l hv
  | npBool b => simp [convert_to_serializable, transportSafe]
  | pyInt n => simp [convert_to_serializable, pdIsna, transportSafe]
  | pyFloat b q =>
      cases b with
      | true => simp [convert_to_serializable, pdIsna, transportSafe]
      | false => simp [convert_to_serializable, pdIsna, transportSafe]
  | pyStr s => simp [convert_to_serializable, pdIsna, transportSafe]
  | pyBool b => simp [convert_to_serializable, pdIsna, transportSafe]
  | pyList l =>
      simp only [cellOk] at hv
      simp only [convert_to_serializable, pdIsna, if_neg]
      simpa [transportSafe] using hv
  | pyNone => simp [convert_to_serializable, pdIsna, transportSafe]
  | pyNaT => simp [convert_to_serializable, pdIsna, transportSafe]

/-- C8 counterexample: a numpy floating NaN — a NaN cell, `pd.isna` holds —
is converted to a native float NaN, not to the empty string, and the result
is not transport-safe. -/
theorem C8_nan_counterexample :
    pdIsna (PyVal.npFloat true 0) = true ∧
    convert_to_serializable (PyVal.npFloat true 0) = PyVal.pyFloat true 0 ∧
    PyVal.pyFloat true 0 ≠ PyVal.pyStr "" ∧
    transportSafe (PyVal.pyFloat true 0) = false :=
  ⟨rfl, rfl, fun h => PyVal.noConfusion h, by simp [transportSafe]⟩

/-- C8 witness: a finite numpy float converts to a transport-safe value. -/
theorem C8_serializable_amended_witness :
    cellOk (PyVal.npFloat false 2) = true ∧
    transportSafe (convert_to_serializable (PyVal.npFloat false 2)) = true ∧
    convert_to_serializable PyVal.pyNone = PyVal.pyStr "" :=
  ⟨by simp [cellOk],
    C8_serializable_amended.1 (PyVal.npFloat false 2) (by simp [cellOk]),
    C8_serializable_amended.2.1⟩

/-- C3 witness: appending a null-date row changes nothing, and the
unparseable-date table fails as a whole. -/
theorem C3_null_excluded_bad_raises_witness :
    nullDateRow.prob90Date = DateCell.nullDate ∧
      process_data ([soRow] ++ [nullDateRow]) = process_data [soRow] ∧
      (∃ x ∈ filterStep [badDateRow], x.prob90Date = DateCell.badDate) ∧
      process_data [badDateRow] = Option.none :=
  ⟨by decide,
    (C3_null_excluded_bad_raises [soRow] nullDateRow).1 (by decide),
    ⟨badDateRow, by decide, by decide⟩,
    (C3_null_excluded_bad_raises [badDateRow] nullDateRow).2
      ⟨badDateRow, by decide, by decide⟩⟩

end BoReport
